import Mathlib

/-!
Shallow embedding of the satellite repository's core: the resource cache
(internal/cache/cache.go together with internal/k8s/utils.go), the graph
builder (graph package, BuildGraph and extractProperties), the snapshot
emitter (EmitGraph) and the orchestrator build loop (main).

Kubernetes API objects are modelled by structures carrying exactly the
fields the code reads.  Go maps are modelled as association lists with
map-assignment semantics (insert replaces the entry for an existing key);
Go `map[string]string` values that the code only renders are carried as
`List (String × String)`.  Timestamps and resource quantities are carried
as their rendered strings, since the code only ever formats them.
-/

namespace Satellite

/-- EntityKey mirrors internal/types.EntityKey: the (kind, namespace, name)
identity triple used as the sole map key. -/
structure EntityKey where
  Kind : String
  Namespace : String
  Name : String
deriving DecidableEq

/-- OwnerReference carries the fields of metav1.OwnerReference that the
code reads: the owner's kind and name. -/
structure OwnerReference where
  Kind : String
  Name : String
deriving DecidableEq

/-- ObjectMeta carries the fields of metav1.ObjectMeta the code reads.
CreationTimestamp is carried as its rendered string (the code only calls
String() on it). -/
structure ObjectMeta where
  Name : String
  Namespace : String
  UID : String
  ResourceVersion : String
  CreationTimestamp : String
  Labels : List (String × String)
  Annotations : List (String × String)
  OwnerReferences : List OwnerReference
deriving DecidableEq

/-- Zero value of ObjectMeta, as returned by the Go code for unknown
object types. -/
def emptyObjectMeta : ObjectMeta :=
  { Name := "", Namespace := "", UID := "", ResourceVersion := "",
    CreationTimestamp := "", Labels := [], Annotations := [],
    OwnerReferences := [] }

/-- ConfigMapVolumeSource: the code reads only vol.ConfigMap.Name. -/
structure ConfigMapVolumeSource where
  Name : String
deriving DecidableEq

/-- Volume: the code reads vol.ConfigMap (nil or a config-map source). -/
structure Volume where
  Name : String
  ConfigMap : Option ConfigMapVolumeSource
deriving DecidableEq

/-- PodSpec fields read by the code. -/
structure PodSpec where
  NodeName : String
  Volumes : List Volume
deriving DecidableEq

/-- PodStatus fields read by the code.  StartTime is an optional pointer
in Go; its value is carried as the rendered RFC3339 string. -/
structure PodStatus where
  Phase : String
  PodIP : String
  HostIP : String
  StartTime : Option String
deriving DecidableEq

/-- Pod mirrors corev1.Pod restricted to the fields the code reads. -/
structure Pod where
  ObjectMeta : ObjectMeta
  Spec : PodSpec
  Status : PodStatus
deriving DecidableEq

/-- LabelSelector: the code reads only MatchLabels. -/
structure LabelSelector where
  MatchLabels : List (String × String)
deriving DecidableEq

/-- ReplicaSetSpec fields read by the code.  Replicas is *int32 in Go,
modelled as Option Int. -/
structure ReplicaSetSpec where
  Replicas : Option Int
  Selector : Option LabelSelector
deriving DecidableEq

/-- ReplicaSetStatus fields read by the code (int32 counters). -/
structure ReplicaSetStatus where
  Replicas : Int
  ReadyReplicas : Int
  AvailableReplicas : Int
deriving DecidableEq

/-- ReplicaSet mirrors appsv1.ReplicaSet restricted to read fields. -/
structure ReplicaSet where
  ObjectMeta : ObjectMeta
  Spec : ReplicaSetSpec
  Status : ReplicaSetStatus
deriving DecidableEq

/-- DeploymentSpec fields read by the code. -/
structure DeploymentSpec where
  Replicas : Option Int
  Selector : Option LabelSelector
deriving DecidableEq

/-- DeploymentStatus fields read by the code. -/
structure DeploymentStatus where
  Replicas : Int
  UpdatedReplicas : Int
  ReadyReplicas : Int
  AvailableReplicas : Int
deriving DecidableEq

/-- Deployment mirrors appsv1.Deployment restricted to read fields. -/
structure Deployment where
  ObjectMeta : ObjectMeta
  Spec : DeploymentSpec
  Status : DeploymentStatus
deriving DecidableEq

/-- NodeSystemInfo fields read by the code. -/
structure NodeSystemInfo where
  KubeletVersion : String
  OSImage : String
  ContainerRuntimeVersion : String
deriving DecidableEq

/-- NodeSpec fields read by the code. -/
structure NodeSpec where
  PodCIDR : String
deriving DecidableEq

/-- NodeStatus fields read by the code.  Capacity and allocatable
quantities are carried as their rendered strings (the code only calls
Cpu().String() and Memory().String() on them). -/
structure NodeStatus where
  CapacityCpu : String
  CapacityMemory : String
  AllocatableCpu : String
  AllocatableMemory : String
  NodeInfo : NodeSystemInfo
deriving DecidableEq

/-- Node mirrors corev1.Node restricted to the fields the code reads. -/
structure Node where
  ObjectMeta : ObjectMeta
  Spec : NodeSpec
  Status : NodeStatus
deriving DecidableEq

/-- ServiceSpec fields read by the code.  Selector is a nilable Go map:
none models nil, some [] models an empty non-nil map.  The Go field
`Type` is rendered as Type' because `Type` is reserved in Lean. -/
structure ServiceSpec where
  Type' : String
  ClusterIP : String
  ClusterIPs : List String
  Selector : Option (List (String × String))
deriving DecidableEq

/-- Service mirrors corev1.Service restricted to the fields the code
reads. -/
structure Service where
  ObjectMeta : ObjectMeta
  Spec : ServiceSpec
deriving DecidableEq

/-- ConfigMap mirrors corev1.ConfigMap restricted to the fields the code
reads (the Data map, of which only the keys are used). -/
structure ConfigMap where
  ObjectMeta : ObjectMeta
  Data : List (String × String)
deriving DecidableEq

/-- ObjBody is the dynamic type of a runtime.Object handed to the cache:
one of the six known concrete types, or some unknown Go type. -/
inductive ObjBody where
  | pod (o : Pod)
  | replicaSet (o : ReplicaSet)
  | deployment (o : Deployment)
  | node (o : Node)
  | service (o : Service)
  | configMap (o : ConfigMap)
  | unknownType
deriving DecidableEq

/-- K8sObject models a runtime.Object: the Kind string carried by its
GroupVersionKind (possibly empty) together with its dynamic type. -/
structure K8sObject where
  gvkKind : String
  body : ObjBody
deriving DecidableEq

/-- GetObjectMeta mirrors k8s.GetObjectMeta restricted to runtime.Objects:
a type switch over the six known types, returning the zero ObjectMeta for
unknown types. -/
def GetObjectMeta : ObjBody → ObjectMeta
  | .pod o => o.ObjectMeta
  | .replicaSet o => o.ObjectMeta
  | .deployment o => o.ObjectMeta
  | .node o => o.ObjectMeta
  | .service o => o.ObjectMeta
  | .configMap o => o.ObjectMeta
  | .unknownType => emptyObjectMeta

/-- getKindFromType mirrors k8s.getKindFromType: infer the Kind string
from the object's Go type, empty for unknown types. -/
def getKindFromType : ObjBody → String
  | .pod _ => "Pod"
  | .replicaSet _ => "ReplicaSet"
  | .deployment _ => "Deployment"
  | .node _ => "Node"
  | .service _ => "Service"
  | .configMap _ => "ConfigMap"
  | .unknownType => ""

/-- GetKey mirrors k8s.GetKey: take the GVK kind, fall back to the Go
type when it is empty, and fail when neither determines a kind. -/
def GetKey (obj : K8sObject) : Option EntityKey :=
  let meta := GetObjectMeta obj.body
  let kind := if obj.gvkKind = "" then getKindFromType obj.body else obj.gvkKind
  if kind = "" then none
  else some { Kind := kind, Namespace := meta.Namespace, Name := meta.Name }

/-- Association-list model of a Go map: lookup returns the value of the
first entry with the given key. -/
def mapLookup {α β : Type} [DecidableEq α] : List (α × β) → α → Option β
  | [], _ => none
  | p :: rest, k => if p.1 = k then some p.2 else mapLookup rest k

/-- Association-list model of Go `delete(m, k)`. -/
def mapErase {α β : Type} [DecidableEq α] (m : List (α × β)) (k : α) : List (α × β) :=
  m.filter fun p => decide (p.1 ≠ k)

/-- Association-list model of Go map assignment `m[k] = v`: replaces the
entry for k when present, adds it otherwise. -/
def mapInsert {α β : Type} [DecidableEq α] (m : List (α × β)) (k : α) (v : β) : List (α × β) :=
  mapErase m k ++ [(k, v)]

/-- ResourceCache models internal/cache.ResourceCache: the store map and
the contents of the capacity-one changedCh channel (number of buffered
signals).  The RWMutex serializes all store accesses, so the sequential
model applies each operation atomically. -/
structure ResourceCache where
  store : List (EntityKey × K8sObject)
  changedPending : Nat
deriving DecidableEq

/-- NewResourceCache mirrors cache.NewResourceCache: empty store, empty
capacity-one channel. -/
def NewResourceCache : ResourceCache :=
  { store := [], changedPending := 0 }

/-- signalChange mirrors ResourceCache.signalChange: a non-blocking send
on the capacity-one channel — buffers a signal if the buffer is empty,
otherwise does nothing. -/
def signalChange (pending : Nat) : Nat :=
  if pending < 1 then pending + 1 else pending

/-- Upsert mirrors ResourceCache.Upsert: resolve the key, silently drop
the object when the kind cannot be determined, otherwise store it and
signal a change. -/
def Upsert (c : ResourceCache) (obj : K8sObject) : ResourceCache :=
  match GetKey obj with
  | none => c
  | some key =>
    { store := mapInsert c.store key obj,
      changedPending := signalChange c.changedPending }

/-- DeleteInput models the interface{} argument of ResourceCache.Delete:
a plain runtime.Object, a DeletedFinalStateUnknown tombstone (whose Obj
may fail the runtime.Object assertion, modelled by none), or some other
value that is neither. -/
inductive DeleteInput where
  | runtimeObj (o : K8sObject)
  | tombstone (o : Option K8sObject)
  | nonObject
deriving DecidableEq

/-- resolveDelete mirrors the type-assertion prologue of
ResourceCache.Delete: unwrap a tombstone, otherwise require a
runtime.Object. -/
def resolveDelete : DeleteInput → Option K8sObject
  | .tombstone o => o
  | .runtimeObj o => some o
  | .nonObject => none

/-- Delete mirrors ResourceCache.Delete: resolve the payload to a
runtime.Object, resolve its key, and remove the entry — signalling a
change — only when the key is present. -/
def Delete (c : ResourceCache) (input : DeleteInput) : ResourceCache :=
  match resolveDelete input with
  | none => c
  | some robj =>
    match GetKey robj with
    | none => c
    | some key =>
      if (mapLookup c.store key).isSome then
        { store := mapErase c.store key,
          changedPending := signalChange c.changedPending }
      else c

/-- Abbreviation for the snapshot type returned by List. -/
abbrev ObjList := List K8sObject

/-- List mirrors ResourceCache.List: a snapshot copy of all stored
objects. -/
def ResourceCache.List (c : ResourceCache) : ObjList :=
  c.store.map fun p => p.2

/-- CacheOp is one mutation delivered by the watch source. -/
inductive CacheOp where
  | upsert (obj : K8sObject)
  | delete (input : DeleteInput)
deriving DecidableEq

/-- applyOp applies one mutation to the cache. -/
def applyOp (c : ResourceCache) : CacheOp → ResourceCache
  | .upsert obj => Upsert c obj
  | .delete input => Delete c input

/-- applyOps applies a sequence of mutations in order. -/
def applyOps (ops : List CacheOp) (c : ResourceCache) : ResourceCache :=
  ops.foldl applyOp c

/-- GraphEntityKey mirrors graph.GraphEntityKey. -/
structure GraphEntityKey where
  Name : String
  Namespace : String
  Kind : String
deriving DecidableEq

/-- GraphNode mirrors graph.GraphNode; the Properties map is carried as a
key/value list in insertion order. -/
structure GraphNode where
  Key : GraphEntityKey
  Properties : List (String × String)
  Revision : Nat
deriving DecidableEq

/-- GraphRelationship mirrors graph.GraphRelationship; Properties models
the nilable Go map (BuildGraph always leaves it nil). -/
structure GraphRelationship where
  Source : GraphEntityKey
  Target : GraphEntityKey
  RelationshipType : String
  Properties : Option (List (String × String))
  Revision : Nat
deriving DecidableEq

/-- Graph mirrors graph.Graph. -/
structure Graph where
  Nodes : List GraphNode
  Relationships : List GraphRelationship
  GraphRevision : Nat
deriving DecidableEq

/-- Insertion step of the insertion sort used to model Go's sorting of
rendered label strings. -/
def insertSorted {α : Type} (le : α → α → Bool) (a : α) : List α → List α
  | [] => [a]
  | b :: bs => if le a b then a :: b :: bs else b :: insertSorted le a bs

/-- Insertion sort, modelling sort.Strings / sort.Sort determinism in the
label-rendering helpers. -/
def sortBy {α : Type} (le : α → α → Bool) : List α → List α
  | [] => []
  | a :: as => insertSorted le a (sortBy le as)

/-- labelsSetString models labels.Set.String(): render each pair as
"k=v", sort the rendered strings, join with commas. -/
def labelsSetString (m : List (String × String)) : String :=
  String.intercalate ","
    (sortBy (fun a b => decide (a ≤ b)) (m.map fun kv => kv.1 ++ "=" ++ kv.2))

/-- selectorFromSetString models
labels.SelectorFromSet(m).String(): equality requirements sorted by key,
rendered "k=v", joined with commas. -/
def selectorFromSetString (m : List (String × String)) : String :=
  String.intercalate ","
    ((sortBy (fun a b => decide (a.1 ≤ b.1)) m).map fun kv => kv.1 ++ "=" ++ kv.2)

/-- int32PtrToString mirrors graph.int32PtrToString: empty string for a
nil pointer, otherwise the decimal rendering. -/
def int32PtrToString : Option Int → String
  | none => ""
  | some n => toString n

/-- timePtrToString mirrors graph.timePtrToString: empty string for a nil
pointer, otherwise the RFC3339 rendering (times are carried already
rendered). -/
def timePtrToString : Option String → String
  | none => ""
  | some t => t

/-- commonProps is the common-properties section of
graph.extractProperties: uid, resourceVersion, creationTimestamp, plus
labels and annotations when non-empty. -/
def commonProps (meta : ObjectMeta) : List (String × String) :=
  [("uid", meta.UID),
   ("resourceVersion", meta.ResourceVersion),
   ("creationTimestamp", meta.CreationTimestamp)]
  ++ (if meta.Labels.length > 0 then
        [("labels", labelsSetString meta.Labels)] else [])
  ++ (if meta.Annotations.length > 0 then
        [("annotations",
          String.intercalate "," (meta.Annotations.map fun kv => kv.1 ++ "=" ++ kv.2))]
      else [])

/-- specificProps is the kind-specific type switch of
graph.extractProperties. -/
def specificProps (obj : ObjBody) : List (String × String) :=
  match obj with
    | .pod o =>
      [("status.phase", o.Status.Phase),
       ("spec.nodeName", o.Spec.NodeName),
       ("status.podIP", o.Status.PodIP),
       ("status.hostIP", o.Status.HostIP),
       ("status.startTime", timePtrToString o.Status.StartTime)]
    | .replicaSet o =>
      [("spec.replicas", int32PtrToString o.Spec.Replicas),
       ("status.replicas", toString o.Status.Replicas),
       ("status.readyReplicas", toString o.Status.ReadyReplicas),
       ("status.availableReplicas", toString o.Status.AvailableReplicas),
       ("spec.selector",
        match o.Spec.Selector with
        | some sel => selectorFromSetString sel.MatchLabels
        | none => "")]
    | .deployment o =>
      [("spec.replicas", int32PtrToString o.Spec.Replicas),
       ("status.replicas", toString o.Status.Replicas),
       ("status.updatedReplicas", toString o.Status.UpdatedReplicas),
       ("status.readyReplicas", toString o.Status.ReadyReplicas),
       ("status.availableReplicas", toString o.Status.AvailableReplicas),
       ("spec.selector",
        match o.Spec.Selector with
        | some sel => selectorFromSetString sel.MatchLabels
        | none => "")]
    | .node o =>
      [("spec.podCIDR", o.Spec.PodCIDR),
       ("status.capacity.cpu", o.Status.CapacityCpu),
       ("status.capacity.memory", o.Status.CapacityMemory),
       ("status.allocatable.cpu", o.Status.AllocatableCpu),
       ("status.allocatable.memory", o.Status.AllocatableMemory),
       ("status.nodeInfo.kubeletVersion", o.Status.NodeInfo.KubeletVersion),
       ("status.nodeInfo.osImage", o.Status.NodeInfo.OSImage),
       ("status.nodeInfo.containerRuntimeVersion", o.Status.NodeInfo.ContainerRuntimeVersion)]
    | .service o =>
      [("spec.type", o.Spec.Type'),
       ("spec.clusterIP", o.Spec.ClusterIP)]
      ++ (if o.Spec.ClusterIPs.length > 0 then
            [("spec.clusterIPs", String.intercalate "," o.Spec.ClusterIPs)] else [])
      ++ (match o.Spec.Selector with
          | some sel => [("spec.selector", labelsSetString sel)]
          | none => [])
    | .configMap o =>
      if o.Data.length > 0 then
        [("data.keys", String.intercalate "," (o.Data.map fun kv => kv.1))]
      else []
    | .unknownType => []

/-- extractProperties mirrors graph.extractProperties: common metadata
properties followed by the kind-specific properties.  All keys set by the
code are distinct, so the insertion-ordered list matches the Go map. -/
def extractProperties (obj : ObjBody) : List (String × String) :=
  commonProps (GetObjectMeta obj) ++ specificProps obj

/-- graphKeyOfEntityKey copies an EntityKey verbatim into a
GraphEntityKey, as BuildGraph does field by field. -/
def graphKeyOfEntityKey (key : EntityKey) : GraphEntityKey :=
  { Name := key.Name, Namespace := key.Namespace, Kind := key.Kind }

/-- graphKeyOf models the Go idiom `key, _ := k8s.GetKey(obj)` followed
by the field-by-field copy: the zero EntityKey is used when GetKey
fails. -/
def graphKeyOf (obj : K8sObject) : GraphEntityKey :=
  graphKeyOfEntityKey ((GetKey obj).getD { Kind := "", Namespace := "", Name := "" })

/-- nodeForObj is the node-building step of BuildGraph for one object:
skipped when the key cannot be resolved. -/
def nodeForObj (rev : Nat) (obj : K8sObject) : Option GraphNode :=
  match GetKey obj with
  | none => none
  | some key =>
    some { Key := graphKeyOfEntityKey key,
           Properties := extractProperties obj.body,
           Revision := rev }

/-- podMapStep is one iteration of the podMap-building loop of
BuildGraph: a pod is inserted under its graph key, anything else is
skipped. -/
def podMapStep (podMap : List (GraphEntityKey × Pod)) (obj : K8sObject) :
    List (GraphEntityKey × Pod) :=
  match obj.body with
  | .pod pod => mapInsert podMap (graphKeyOf obj) pod
  | _ => podMap

/-- podMapOf mirrors the podMap lookup built by BuildGraph: a map from
graph key to pod for every pod in the snapshot. -/
def podMapOf (objects : List K8sObject) : List (GraphEntityKey × Pod) :=
  objects.foldl podMapStep []

/-- selectorMatches models labels.SelectorFromSet(sel).Matches(lbls):
every selector pair must appear verbatim in the label map. -/
def selectorMatches (sel : List (String × String)) (lbls : List (String × String)) : Bool :=
  sel.all fun kv => decide (mapLookup lbls kv.1 = some kv.2)

/-- podRels is the Pod case of the relationship switch in BuildGraph:
OWNED_BY edges for ReplicaSet/Deployment owner references, a
SCHEDULED_ON edge for a non-empty node name, and a MOUNTS edge per
config-map volume, in the code's append order. -/
def podRels (rev : Nat) (src : GraphEntityKey) (o : Pod) : List GraphRelationship :=
  (o.ObjectMeta.OwnerReferences.filterMap fun ownerRef =>
    if ownerRef.Kind = "ReplicaSet" ∨ ownerRef.Kind = "Deployment" then
      some { Source := src,
             Target := { Name := ownerRef.Name, Namespace := o.ObjectMeta.Namespace,
                         Kind := ownerRef.Kind },
             RelationshipType := "OWNED_BY", Properties := none, Revision := rev }
    else none)
  ++ (if o.Spec.NodeName ≠ "" then
        [{ Source := src,
           Target := { Name := o.Spec.NodeName, Namespace := "", Kind := "Node" },
           RelationshipType := "SCHEDULED_ON", Properties := none, Revision := rev }]
      else [])
  ++ (o.Spec.Volumes.filterMap fun vol =>
        match vol.ConfigMap with
        | some cmSource =>
          some { Source := src,
                 Target := { Name := cmSource.Name, Namespace := o.ObjectMeta.Namespace,
                             Kind := "ConfigMap" },
                 RelationshipType := "MOUNTS", Properties := none, Revision := rev }
        | none => none)

/-- replicaSetRels is the ReplicaSet case of the relationship switch:
OWNED_BY edges for Deployment owner references. -/
def replicaSetRels (rev : Nat) (src : GraphEntityKey) (o : ReplicaSet) : List GraphRelationship :=
  o.ObjectMeta.OwnerReferences.filterMap fun ownerRef =>
    if ownerRef.Kind = "Deployment" then
      some { Source := src,
             Target := { Name := ownerRef.Name, Namespace := o.ObjectMeta.Namespace,
                         Kind := ownerRef.Kind },
             RelationshipType := "OWNED_BY", Properties := none, Revision := rev }
    else none

/-- serviceRels is the Service case of the relationship switch: with a
non-nil, non-empty selector, one SELECTS edge per pod of the pod map in
the service's namespace whose labels match the selector. -/
def serviceRels (rev : Nat) (src : GraphEntityKey) (podMap : List (GraphEntityKey × Pod))
    (o : Service) : List GraphRelationship :=
  match o.Spec.Selector with
  | some sel =>
    if sel.length > 0 then
      podMap.filterMap fun entry =>
        if entry.2.ObjectMeta.Namespace = o.ObjectMeta.Namespace ∧
            selectorMatches sel entry.2.ObjectMeta.Labels = true then
          some { Source := src, Target := entry.1,
                 RelationshipType := "SELECTS", Properties := none, Revision := rev }
        else none
    else []
  | none => []

/-- relsForObj is the per-object relationship derivation of BuildGraph:
objects without a resolvable key are skipped; Deployment, Node,
ConfigMap and unknown objects originate no relationships. -/
def relsForObj (rev : Nat) (podMap : List (GraphEntityKey × Pod)) (obj : K8sObject) :
    List GraphRelationship :=
  match GetKey obj with
  | none => []
  | some sourceKey =>
    let src := graphKeyOfEntityKey sourceKey
    match obj.body with
    | .pod o => podRels rev src o
    | .replicaSet o => replicaSetRels rev src o
    | .service o => serviceRels rev src podMap o
    | _ => []

/-- BuildGraph mirrors graph.BuildGraph: one node per keyed object of the
snapshot, then the relationship rules evaluated per object using the
pod map, all stamped with the given revision. -/
def BuildGraph (resourceCache : ResourceCache) (currentGraphRevision : Nat) : Graph :=
  let objects := resourceCache.List
  { Nodes := objects.filterMap (nodeForObj currentGraphRevision),
    Relationships := objects.flatMap (relsForObj currentGraphRevision (podMapOf objects)),
    GraphRevision := currentGraphRevision }

/-- jsonEscape models encoding/json string escaping for the characters
that occur here: backslash and double quote. -/
def jsonEscape (s : String) : String :=
  String.join (s.toList.map fun c =>
    if c = '\\' then "\\\\" else if c = '"' then "\\\"" else String.singleton c)

/-- jsonString renders a JSON string literal. -/
def jsonString (s : String) : String :=
  "\"" ++ jsonEscape s ++ "\""

/-- renderObject renders a JSON object in MarshalIndent style: field
values must already be rendered relative to one extra indent level;
indent is the prefix of the closing brace's line. -/
def renderObject (indent : String) (fields : List (String × String)) : String :=
  if fields.isEmpty then "\x7b\x7d"
  else
    "\x7b\n"
    ++ String.intercalate ",\n"
        (fields.map fun f => indent ++ "  " ++ jsonString f.1 ++ ": " ++ f.2)
    ++ "\n" ++ indent ++ "\x7d"

/-- renderArray renders a JSON array in MarshalIndent style; elements
must already be rendered relative to one extra indent level. -/
def renderArray (indent : String) (elems : List String) : String :=
  if elems.isEmpty then "[]"
  else
    "[\n"
    ++ String.intercalate ",\n" (elems.map fun e => indent ++ "  " ++ e)
    ++ "\n" ++ indent ++ "]"

/-- renderStringMap renders a map[string]string the way encoding/json
does: keys sorted. -/
def renderStringMap (indent : String) (m : List (String × String)) : String :=
  renderObject indent
    ((sortBy (fun a b => decide (a.1 ≤ b.1)) m).map fun kv => (kv.1, jsonString kv.2))

/-- renderGraphEntityKey renders a GraphEntityKey with the struct's JSON
tags: name, namespace (omitempty), kind. -/
def renderGraphEntityKey (indent : String) (k : GraphEntityKey) : String :=
  renderObject indent
    ([("name", jsonString k.Name)]
     ++ (if k.Namespace = "" then [] else [("namespace", jsonString k.Namespace)])
     ++ [("kind", jsonString k.Kind)])

/-- renderGraphNode renders a GraphNode with the struct's JSON tags. -/
def renderGraphNode (indent : String) (n : GraphNode) : String :=
  renderObject indent
    [("key", renderGraphEntityKey (indent ++ "  ") n.Key),
     ("properties", renderStringMap (indent ++ "  ") n.Properties),
     ("revision", toString n.Revision)]

/-- renderGraphRelationship renders a GraphRelationship with the struct's
JSON tags; properties carries omitempty, so a nil or empty map is
omitted. -/
def renderGraphRelationship (indent : String) (r : GraphRelationship) : String :=
  renderObject indent
    ([("source", renderGraphEntityKey (indent ++ "  ") r.Source),
      ("target", renderGraphEntityKey (indent ++ "  ") r.Target),
      ("relationshipType", jsonString r.RelationshipType)]
     ++ (match r.Properties with
         | some m => if m.isEmpty then [] else [("properties", renderStringMap (indent ++ "  ") m)]
         | none => [])
     ++ [("revision", toString r.Revision)])

/-- marshalIndentGraph models json.MarshalIndent(graph, "", "  ") on the
Graph struct: nodes, relationships, graphRevision. -/
def marshalIndentGraph (g : Graph) : String :=
  renderObject ""
    [("nodes", renderArray "  " (g.Nodes.map (renderGraphNode "    "))),
     ("relationships", renderArray "  " (g.Relationships.map (renderGraphRelationship "    "))),
     ("graphRevision", toString g.GraphRevision)]

/-- FileSystem models the subset of the filesystem EmitGraph touches:
the files of the output directory, path to contents. -/
structure FileSystem where
  files : List (String × String)
deriving DecidableEq

/-- EmitFaults is the fault schedule for one EmitGraph call: whether each
fallible step of the code fails. -/
structure EmitFaults where
  mkdirFail : Bool
  marshalFail : Bool
  createTempFail : Bool
  writeFail : Bool
  syncFail : Bool
  closeFail : Bool
  renameFail : Bool
deriving DecidableEq

/-- preRenameFailure holds when some step strictly before the rename
fails. -/
def preRenameFailure (f : EmitFaults) : Bool :=
  f.mkdirFail || f.marshalFail || f.createTempFail || f.writeFail || f.syncFail || f.closeFail

/-- finalFilename models filepath.Join(outputDir,
fmt.Sprintf("graph-%s.json", timestamp)). -/
def finalFilename (outputDir timestamp : String) : String :=
  outputDir ++ "/" ++ "graph-" ++ timestamp ++ ".json"

/-- EmitGraph mirrors emitter.EmitGraph step by step over the filesystem
model.  tempName is the fresh name chosen by os.CreateTemp and timestamp
the rendering of time.Now(); both are inputs of the model.  The deferred
cleanup (close and remove the temp file unless the rename succeeded) is
reflected on every error path after the temp file exists. -/
def EmitGraph (graph : Graph) (outputDir tempName timestamp : String)
    (faults : EmitFaults) (fs : FileSystem) : Except String Unit × FileSystem :=
  if faults.mkdirFail then (.error "failed to create output directory", fs)
  else if faults.marshalFail then (.error "failed to marshal graph to JSON", fs)
  else if faults.createTempFail then (.error "failed to create temporary file", fs)
  else
    let jsonData := marshalIndentGraph graph
    let fsCreated : FileSystem := { files := mapInsert fs.files tempName "" }
    if faults.writeFail then
      (.error "failed to write to temporary file",
       { files := mapErase fsCreated.files tempName })
    else
      let fsWritten : FileSystem := { files := mapInsert fsCreated.files tempName jsonData }
      if faults.syncFail then
        (.error "failed to sync temporary file",
         { files := mapErase fsWritten.files tempName })
      else if faults.closeFail then
        (.error "failed to close temporary file",
         { files := mapErase fsWritten.files tempName })
      else if faults.renameFail then
        (.error "failed to rename temporary file",
         { files := mapErase fsWritten.files tempName })
      else
        (.ok (),
         { files := mapInsert (mapErase fsWritten.files tempName)
             (finalFilename outputDir timestamp) jsonData })

/-- LoopEvent is one wake-up of the orchestrator's select: a drained
change signal together with the cache snapshot the following build
observes, or the shutdown signal. -/
inductive LoopEvent where
  | changed (snapshot : ResourceCache)
  | shutdown

/-- buildLoop mirrors the labelled select loop of main: each change
signal increments the revision and builds a graph; the shutdown signal
breaks out of the loop, ignoring any later events.  Returns the graphs
built inside the loop and the revision counter at exit. -/
def buildLoop : List LoopEvent → Nat → List Graph × Nat
  | [], rev => ([], rev)
  | .changed c :: rest, rev =>
    let g := BuildGraph c (rev + 1)
    let res := buildLoop rest (rev + 1)
    (g :: res.1, res.2)
  | .shutdown :: _, rev => ([], rev)

/-- mainRun mirrors the tail of main: run the build loop, then perform
the final build and emit from the cache state observed after the loop,
under a freshly incremented revision. -/
def mainRun (events : List LoopEvent) (finalCache : ResourceCache) (rev0 : Nat) : List Graph :=
  let res := buildLoop events rev0
  res.1 ++ [BuildGraph finalCache (res.2 + 1)]

/-- changedBeforeShutdown lists the snapshots of the change events the
loop consumes before the first shutdown event. -/
def changedBeforeShutdown : List LoopEvent → List ResourceCache
  | [] => []
  | .changed c :: rest => c :: changedBeforeShutdown rest
  | .shutdown :: _ => []

/-- lastWriteWins is the specification-side fold step for one key: an
upsert resolving to the key overwrites, a delete resolving to the key
removes, anything else leaves the content alone. -/
def lastWriteWins (k : EntityKey) (acc : Option K8sObject) : CacheOp → Option K8sObject
  | .upsert obj => if GetKey obj = some k then some obj else acc
  | .delete input =>
    match resolveDelete input with
    | some robj => if GetKey robj = some k then none else acc
    | none => acc

/-- specContent gives, for each key, the record the specification expects
after a sequence of operations on a fresh cache: the object of the last
upsert of that key unless a later delete removed it. -/
def specContent (ops : List CacheOp) (k : EntityKey) : Option K8sObject :=
  ops.foldl (lastWriteWins k) none

theorem mapLookup_append {α β : Type} [DecidableEq α] (a b : List (α × β)) (k : α) :
    mapLookup (a ++ b) k =
      match mapLookup a k with
      | some v => some v
      | none => mapLookup b k := by
  induction a with
  | nil => simp [mapLookup]
  | cons p rest ih =>
    by_cases h : p.1 = k <;> simp [mapLookup, h, ih]

theorem mapErase_cons {α β : Type} [DecidableEq α] (p : α × β) (rest : List (α × β)) (k : α) :
    mapErase (p :: rest) k = if p.1 = k then mapErase rest k else p :: mapErase rest k := by
  by_cases h : p.1 = k <;> simp [mapErase, List.filter_cons, h]

theorem mapLookup_mapErase {α β : Type} [DecidableEq α] (m : List (α × β)) (k k' : α) :
    mapLookup (mapErase m k) k' = if k = k' then none else mapLookup m k' := by
  induction m with
  | nil => simp [mapErase, mapLookup]
  | cons p rest ih =>
    rw [mapErase_cons]
    by_cases hpk : p.1 = k
    · rw [if_pos hpk, ih]
      by_cases hkk : k = k'
      · simp [hkk]
      · have hpk' : ¬ p.1 = k' := by rw [hpk]; exact hkk
        simp [hkk, mapLookup, hpk']
    · rw [if_neg hpk]
      by_cases hpk' : p.1 = k'
      · have hkk : ¬ k = k' := fun h => hpk (hpk'.trans h.symm)
        simp [mapLookup, hpk', hkk]
      · simp [mapLookup, hpk', ih]

theorem mapLookup_mapInsert {α β : Type} [DecidableEq α] (m : List (α × β)) (k k' : α) (v : β) :
    mapLookup (mapInsert m k v) k' = if k = k' then some v else mapLookup m k' := by
  unfold mapInsert
  rw [mapLookup_append, mapLookup_mapErase]
  by_cases h : k = k'
  · simp [h, mapLookup]
  · simp only [h, if_false]
    cases hm : mapLookup m k' <;> simp [hm, mapLookup, h]

theorem mapLookup_isSome_iff_mem_keys {α β : Type} [DecidableEq α]
    (m : List (α × β)) (k : α) :
    (mapLookup m k).isSome = true ↔ k ∈ m.map Prod.fst := by
  induction m with
  | nil => simp [mapLookup]
  | cons p rest ih =>
    by_cases h : p.1 = k
    · simp [mapLookup, h, eq_comm]
    · have h' : ¬ k = p.1 := fun hh => h hh.symm
      simp [mapLookup, h, h', ih]

theorem applyOp_lookup (c : ResourceCache) (op : CacheOp) (k : EntityKey) :
    mapLookup (applyOp c op).store k = lastWriteWins k (mapLookup c.store k) op := by
  cases op with
  | upsert obj =>
    simp only [applyOp, Upsert, lastWriteWins]
    cases h : GetKey obj with
    | none => simp [h]
    | some key =>
      simp only [h]
      rw [mapLookup_mapInsert]
      by_cases hk : key = k
      · subst hk; simp
      · simp [hk, Option.some.injEq]
  | delete input =>
    simp only [applyOp, Delete, lastWriteWins]
    cases hr : resolveDelete input with
    | none => simp
    | some robj =>
      simp only []
      cases hk : GetKey robj with
      | none => simp [hk]
      | some key =>
        simp only [hk]
        cases hcl : mapLookup c.store key with
        | some v =>
          simp only [hcl, Option.isSome_some, if_true]
          rw [mapLookup_mapErase]
          by_cases hkk : key = k <;> simp [hkk]
        | none =>
          simp only [hcl, Option.isSome_none, Bool.false_eq_true, if_false]
          by_cases hkk : key = k
          · subst hkk; simp [hcl]
          · simp [hkk, Option.some.injEq]

theorem applyOps_lookup (ops : List CacheOp) (c : ResourceCache) (k : EntityKey) :
    mapLookup (applyOps ops c).store k = ops.foldl (lastWriteWins k) (mapLookup c.store k) := by
  induction ops generalizing c with
  | nil => simp [applyOps]
  | cons op rest ih =>
    show mapLookup (applyOps rest (applyOp c op)).store k = _
    rw [ih (applyOp c op), List.foldl_cons, applyOp_lookup]

/-- C1: for every sequence of upsert/delete operations applied to a fresh
ResourceCache and every key, the stored record equals the object of the
last upsert resolving to that key unless a later delete of that key
removed it; in particular the key set of the store (and hence of the
List() snapshot, which copies the store values) is exactly the set of
keys whose last effective operation was an upsert. -/
theorem cache_list_reflects_last_write (ops : List CacheOp) (k : EntityKey) :
    mapLookup (applyOps ops NewResourceCache).store k = specContent ops k
    ∧ (k ∈ (applyOps ops NewResourceCache).store.map Prod.fst ↔ specContent ops k ≠ none)
    ∧ (applyOps ops NewResourceCache).List = (applyOps ops NewResourceCache).store.map Prod.snd := by
  have hmain : mapLookup (applyOps ops NewResourceCache).store k = specContent ops k := by
    rw [applyOps_lookup]; rfl
  refine ⟨hmain, ?_, rfl⟩
  rw [← hmain, ← mapLookup_isSome_iff_mem_keys, Option.isSome_iff_ne_none]

/-- Test namespace, as in TestBuildGraph_Relationships. -/
def testNs : String := "graph-test"

/-- Test node name, as in TestBuildGraph_Relationships. -/
def testNodeName : String := "test-node"

/-- Deployment body of the TestBuildGraph_Relationships fixture. -/
def testDeployObj : Deployment :=
  { ObjectMeta := { emptyObjectMeta with
      Name := "test-deploy", Namespace := testNs, UID := "deploy-uid" },
    Spec := { Replicas := none, Selector := some { MatchLabels := [("app", "test")] } },
    Status := { Replicas := 0, UpdatedReplicas := 0, ReadyReplicas := 0,
                AvailableReplicas := 0 } }

/-- Deployment fixture of TestBuildGraph_Relationships. -/
def testDeploy : K8sObject :=
  { gvkKind := "", body := .deployment testDeployObj }

/-- ReplicaSet body of the fixture: owned by the deployment. -/
def testRsObj : ReplicaSet :=
  { ObjectMeta := { emptyObjectMeta with
      Name := "test-rs", Namespace := testNs, UID := "rs-uid",
      OwnerReferences := [{ Kind := "Deployment", Name := "test-deploy" }] },
    Spec := { Replicas := none, Selector := some { MatchLabels := [("app", "test")] } },
    Status := { Replicas := 0, ReadyReplicas := 0, AvailableReplicas := 0 } }

/-- ReplicaSet fixture: owned by the deployment. -/
def testRs : K8sObject :=
  { gvkKind := "", body := .replicaSet testRsObj }

/-- Pod body of the fixture: owned by the replica set, scheduled on the
node, mounting the config map, labelled app=test. -/
def testPodObj : Pod :=
  { ObjectMeta := { emptyObjectMeta with
      Name := "test-pod", Namespace := testNs, UID := "pod-uid",
      Labels := [("app", "test")],
      OwnerReferences := [{ Kind := "ReplicaSet", Name := "test-rs" }] },
    Spec := { NodeName := testNodeName,
              Volumes := [{ Name := "config", ConfigMap := some { Name := "test-cm" } }] },
    Status := { Phase := "", PodIP := "", HostIP := "", StartTime := none } }

/-- Pod fixture wrapping the pod body. -/
def testPod : K8sObject :=
  { gvkKind := "", body := .pod testPodObj }

/-- Node fixture. -/
def testNode : K8sObject :=
  { gvkKind := "",
    body := .node
      { ObjectMeta := { emptyObjectMeta with Name := testNodeName, UID := "node-uid" },
        Spec := { PodCIDR := "" },
        Status := { CapacityCpu := "", CapacityMemory := "", AllocatableCpu := "",
                    AllocatableMemory := "",
                    NodeInfo := { KubeletVersion := "", OSImage := "",
                                  ContainerRuntimeVersion := "" } } } }

/-- Service fixture: selector app=test. -/
def testSvc : K8sObject :=
  { gvkKind := "",
    body := .service
      { ObjectMeta := { emptyObjectMeta with
          Name := "test-svc", Namespace := testNs, UID := "svc-uid" },
        Spec := { Type' := "", ClusterIP := "", ClusterIPs := [],
                  Selector := some [("app", "test")] } } }

/-- ConfigMap fixture. -/
def testCm : K8sObject :=
  { gvkKind := "",
    body := .configMap
      { ObjectMeta := { emptyObjectMeta with
          Name := "test-cm", Namespace := testNs, UID := "cm-uid" },
        Data := [] } }

/-- EntityKey of the pod fixture. -/
def testPodKey : EntityKey :=
  { Kind := "Pod", Namespace := testNs, Name := "test-pod" }

/-- Cache fixture of TestBuildGraph_Relationships: the six objects stored
under their keys. -/
def testCache : ResourceCache :=
  { store :=
      [({ Kind := "Deployment", Namespace := testNs, Name := "test-deploy" }, testDeploy),
       ({ Kind := "ReplicaSet", Namespace := testNs, Name := "test-rs" }, testRs),
       (testPodKey, testPod),
       ({ Kind := "Node", Namespace := "", Name := testNodeName }, testNode),
       ({ Kind := "Service", Namespace := testNs, Name := "test-svc" }, testSvc),
       ({ Kind := "ConfigMap", Namespace := testNs, Name := "test-cm" }, testCm)],
    changedPending := 0 }

/-- An object whose kind cannot be determined: unknown Go type and empty
GVK kind. -/
def unknownObj : K8sObject := { gvkKind := "", body := .unknownType }

/-- opSignals states whether applying the operation to the given cache
state sends a change signal: every key-resolvable upsert does, a delete
only when its resolved key is present. -/
def opSignals (c : ResourceCache) : CacheOp → Bool
  | .upsert obj => (GetKey obj).isSome
  | .delete input =>
    match resolveDelete input with
    | some robj =>
      match GetKey robj with
      | some key => (mapLookup c.store key).isSome
      | none => false
    | none => false

/-- allSignal states that every operation of the sequence, applied in
order, sends a change signal. -/
def allSignal : ResourceCache → List CacheOp → Bool
  | _, [] => true
  | c, op :: rest => opSignals c op && allSignal (applyOp c op) rest

theorem applyOp_pending (c : ResourceCache) (op : CacheOp) :
    (applyOp c op).changedPending = c.changedPending
    ∨ (applyOp c op).changedPending = signalChange c.changedPending := by
  cases op with
  | upsert obj =>
    simp only [applyOp, Upsert]
    cases GetKey obj <;> simp
  | delete input =>
    simp only [applyOp, Delete]
    cases hr : resolveDelete input with
    | none => simp
    | some robj =>
      cases hk : GetKey robj with
      | none => simp [hk]
      | some key => cases hl : (mapLookup c.store key).isSome <;> simp [hk, hl]

theorem applyOp_pending_one (c : ResourceCache) (op : CacheOp)
    (h : c.changedPending = 1) : (applyOp c op).changedPending = 1 := by
  rcases applyOp_pending c op with heq | heq <;> rw [heq, h]
  rfl

theorem applyOps_pending_one (ops : List CacheOp) (c : ResourceCache)
    (h : c.changedPending = 1) : (applyOps ops c).changedPending = 1 := by
  induction ops generalizing c with
  | nil => exact h
  | cons op rest ih => exact ih (applyOp c op) (applyOp_pending_one c op h)

theorem applyOp_signals_pending (c : ResourceCache) (op : CacheOp)
    (hsig : opSignals c op = true) (h0 : c.changedPending = 0) :
    (applyOp c op).changedPending = 1 := by
  cases op with
  | upsert obj =>
    simp only [applyOp, Upsert]
    cases hk : GetKey obj with
    | none => rw [opSignals, hk] at hsig; simp at hsig
    | some key => simp [signalChange, h0]
  | delete input =>
    simp only [applyOp, Delete]
    simp only [opSignals] at hsig
    cases hr : resolveDelete input with
    | none => rw [hr] at hsig; simp at hsig
    | some robj =>
      rw [hr] at hsig
      cases hk : GetKey robj with
      | none => simp [hk] at hsig
      | some key =>
        simp [hk] at hsig
        simp [hk, hsig, signalChange, h0]

/-- C4: a burst of successful mutations between two drains of the change
channel leaves exactly one pending signal, not one per mutation: the
first mutation buffers the single signal and every further signal write
finds the capacity-one buffer full and is a no-op. -/
theorem change_signal_coalesces (c : ResourceCache) (ops : List CacheOp)
    (hdrained : c.changedPending = 0) (hne : ops ≠ [])
    (hall : allSignal c ops = true) :
    (applyOps ops c).changedPending = 1 := by
  cases ops with
  | nil => exact absurd rfl hne
  | cons op rest =>
    rw [allSignal, Bool.and_eq_true] at hall
    have h1 : (applyOp c op).changedPending = 1 :=
      applyOp_signals_pending c op hall.1 hdrained
    exact applyOps_pending_one rest (applyOp c op) h1

/-- Witness for C4: one concrete upsert on a fresh cache buffers exactly
one signal. -/
theorem change_signal_coalesces_witness :
    (applyOps [CacheOp.upsert testPod] NewResourceCache).changedPending = 1 :=
  change_signal_coalesces NewResourceCache [CacheOp.upsert testPod] rfl
    (by simp) (by decide)

/-- C6: a Delete whose resolved key has no record in the store is a
no-op: the cache — store and pending-signal state alike — is returned
unchanged. -/
theorem delete_absent_key_noop (c : ResourceCache) (input : DeleteInput)
    (robj : K8sObject) (key : EntityKey)
    (hres : resolveDelete input = some robj) (hkey : GetKey robj = some key)
    (habsent : mapLookup c.store key = none) :
    Delete c input = c := by
  simp [Delete, hres, hkey, habsent]

/-- Witness for C6: deleting a pod from the fresh empty cache returns it
unchanged. -/
theorem delete_absent_key_noop_witness :
    Delete NewResourceCache (DeleteInput.runtimeObj testPod) = NewResourceCache :=
  delete_absent_key_noop NewResourceCache (DeleteInput.runtimeObj testPod)
    testPod testPodKey rfl (by decide) rfl

/-- C7: Upsert stores the record under the entity's key and signals a
change; when the kind cannot be determined the entity is dropped and the
cache is returned unchanged. -/
theorem upsert_spec (c : ResourceCache) (obj : K8sObject) :
    (GetKey obj = none → Upsert c obj = c)
    ∧ ∀ key, GetKey obj = some key →
        (Upsert c obj).store = mapInsert c.store key obj
        ∧ mapLookup (Upsert c obj).store key = some obj
        ∧ (Upsert c obj).changedPending = signalChange c.changedPending := by
  constructor
  · intro h; simp [Upsert, h]
  · intro key h
    refine ⟨by simp [Upsert, h], ?_, by simp [Upsert, h]⟩
    simp [Upsert, h, mapLookup_mapInsert]

/-- Witness for C7: an unknown-kind object is dropped; a pod upsert is
retrievable under its key. -/
theorem upsert_spec_witness :
    Upsert NewResourceCache unknownObj = NewResourceCache
    ∧ mapLookup (Upsert NewResourceCache testPod).store testPodKey = some testPod :=
  ⟨(upsert_spec NewResourceCache unknownObj).1 (by decide),
   ((upsert_spec NewResourceCache testPod).2 testPodKey (by decide)).2.1⟩

/-- CacheInv is the store invariant maintained by Upsert/Delete: keys are
pairwise distinct and every record's recomputed key is the key it is
stored under. -/
def CacheInv (c : ResourceCache) : Prop :=
  (c.store.map Prod.fst).Nodup ∧ ∀ p ∈ c.store, GetKey p.2 = some p.1

theorem keys_mapErase_sublist {α β : Type} [DecidableEq α] (m : List (α × β)) (k : α) :
    ((mapErase m k).map Prod.fst).Sublist (m.map Prod.fst) :=
  (List.filter_sublist m).map Prod.fst

theorem not_mem_keys_mapErase {α β : Type} [DecidableEq α] (m : List (α × β)) (k : α) :
    k ∉ (mapErase m k).map Prod.fst := by
  induction m with
  | nil => simp [mapErase]
  | cons p rest ih =>
    rw [mapErase_cons]
    by_cases h : p.1 = k
    · simpa [h] using ih
    · simp [h, ih]
      exact fun hh => h hh.symm

theorem nodup_keys_mapInsert {α β : Type} [DecidableEq α] (m : List (α × β)) (k : α) (v : β)
    (h : (m.map Prod.fst).Nodup) : ((mapInsert m k v).map Prod.fst).Nodup := by
  unfold mapInsert
  rw [List.map_append]
  refine List.Nodup.append ((keys_mapErase_sublist m k).nodup h) (by simp) ?_
  intro a ha hb
  simp at hb
  rw [hb] at ha
  exact not_mem_keys_mapErase m k ha

theorem mem_mapInsert {α β : Type} [DecidableEq α] {m : List (α × β)} {k : α} {v : β}
    {p : α × β} (h : p ∈ mapInsert m k v) : p ∈ m ∨ p = (k, v) := by
  unfold mapInsert at h
  rcases List.mem_append.mp h with h1 | h1
  · exact Or.inl (List.mem_of_mem_filter h1)
  · simp at h1; exact Or.inr h1

theorem cacheInv_applyOp (c : ResourceCache) (op : CacheOp) (h : CacheInv c) :
    CacheInv (applyOp c op) := by
  cases op with
  | upsert obj =>
    cases hk : GetKey obj with
    | none =>
      have he : applyOp c (CacheOp.upsert obj) = c := by simp [applyOp, Upsert, hk]
      rw [he]; exact h
    | some key =>
      have he : applyOp c (CacheOp.upsert obj)
          = { store := mapInsert c.store key obj,
              changedPending := signalChange c.changedPending } := by
        simp [applyOp, Upsert, hk]
      rw [he]
      refine ⟨nodup_keys_mapInsert c.store key obj h.1, ?_⟩
      intro p hp
      rcases mem_mapInsert hp with hm | hm
      · exact h.2 p hm
      · subst hm; exact hk
  | delete input =>
    cases hr : resolveDelete input with
    | none =>
      have he : applyOp c (CacheOp.delete input) = c := by simp [applyOp, Delete, hr]
      rw [he]; exact h
    | some robj =>
      cases hk : GetKey robj with
      | none =>
        have he : applyOp c (CacheOp.delete input) = c := by
          simp [applyOp, Delete, hr, hk]
        rw [he]; exact h
      | some key =>
        cases hl : (mapLookup c.store key).isSome with
        | false =>
          have he : applyOp c (CacheOp.delete input) = c := by
            simp [applyOp, Delete, hr, hk, hl]
          rw [he]; exact h
        | true =>
          have he : applyOp c (CacheOp.delete input)
              = { store := mapErase c.store key,
                  changedPending := signalChange c.changedPending } := by
            simp [applyOp, Delete, hr, hk, hl]
          rw [he]
          refine ⟨(keys_mapErase_sublist c.store key).nodup h.1, ?_⟩
          intro p hp
          exact h.2 p (List.mem_of_mem_filter hp)

theorem cacheInv_applyOps (ops : List CacheOp) (c : ResourceCache) (h : CacheInv c) :
    CacheInv (applyOps ops c) := by
  induction ops generalizing c with
  | nil => exact h
  | cons op rest ih => exact ih (applyOp c op) (cacheInv_applyOp c op h)

theorem cacheInv_new : CacheInv NewResourceCache :=
  ⟨List.nodup_nil, by intro p hp; simp [NewResourceCache] at hp⟩

theorem graphKeyOfEntityKey_injective : Function.Injective graphKeyOfEntityKey := by
  intro a b h
  cases a; cases b
  simp only [graphKeyOfEntityKey, GraphEntityKey.mk.injEq] at h
  obtain ⟨h1, h2, h3⟩ := h
  simp only [EntityKey.mk.injEq]
  exact ⟨h3, h2, h1⟩

theorem buildGraph_nodes_keys (store : List (EntityKey × K8sObject)) (rev : Nat)
    (h : ∀ p ∈ store, GetKey p.2 = some p.1) :
    ((store.map (fun p => p.2)).filterMap (nodeForObj rev)).map GraphNode.Key
      = store.map (fun p => graphKeyOfEntityKey p.1) := by
  induction store with
  | nil => rfl
  | cons p rest ih =>
    have hp : GetKey p.2 = some p.1 := h p (List.mem_cons_self p rest)
    have hr := ih (fun q hq => h q (List.mem_cons_of_mem p hq))
    rw [List.filterMap_map] at hr
    simp [List.filterMap_cons, List.filterMap_map, nodeForObj, hp, hr]

/-- C2 (amended): BuildGraph is a function of the snapshot, so repeated
builds from the same snapshot content produce identical — in particular
set-equal — node and relationship lists, and the node list of any build
from a cache satisfying the store invariant has no duplicate keys.  The
relationship list, however, can contain duplicates when two distinct
derivation-rule instances coincide (see the counterexample). -/
theorem buildGraph_node_keys_nodup (c : ResourceCache) (rev : Nat) (hinv : CacheInv c) :
    ((BuildGraph c rev).Nodes.map GraphNode.Key).Nodup := by
  have hkeys : (BuildGraph c rev).Nodes.map GraphNode.Key
      = c.store.map (fun p => graphKeyOfEntityKey p.1) :=
    buildGraph_nodes_keys c.store rev hinv.2
  rw [hkeys, show c.store.map (fun p => graphKeyOfEntityKey p.1)
      = (c.store.map Prod.fst).map graphKeyOfEntityKey from by rw [List.map_map]; rfl]
  exact hinv.1.map graphKeyOfEntityKey_injective

/-- Witness for the amended C2 at the six-object test snapshot. -/
theorem buildGraph_node_keys_nodup_witness :
    ((BuildGraph testCache 1).Nodes.map GraphNode.Key).Nodup :=
  buildGraph_node_keys_nodup testCache 1 ⟨by decide, by decide⟩

/-- Pod fixture with two volumes mounting the same config map — a legal
Kubernetes object for which the MOUNTS rule fires twice identically. -/
def dupVolPod : K8sObject :=
  { gvkKind := "",
    body := .pod
      { ObjectMeta := { emptyObjectMeta with Name := "dup-pod", Namespace := "ns" },
        Spec := { NodeName := "",
                  Volumes := [{ Name := "v1", ConfigMap := some { Name := "shared-cm" } },
                              { Name := "v2", ConfigMap := some { Name := "shared-cm" } }] },
        Status := { Phase := "", PodIP := "", HostIP := "", StartTime := none } } }

/-- Cache reached from a fresh cache by upserting that pod. -/
def dupVolCache : ResourceCache :=
  applyOps [CacheOp.upsert dupVolPod] NewResourceCache

/-- Counterexample for C2 as stated: the graph built from a reachable
snapshot holding one pod with two volumes naming the same config map
contains a duplicated MOUNTS relationship, so the produced Graph does not
have a duplicate-free relationship list. -/
theorem buildGraph_duplicate_relationship_cex :
    ¬ (BuildGraph dupVolCache 1).Relationships.Nodup := by decide

/-- Graph key of the deployment fixture. -/
def deployGK : GraphEntityKey :=
  { Name := "test-deploy", Namespace := testNs, Kind := "Deployment" }

/-- Graph key of the replica-set fixture. -/
def rsGK : GraphEntityKey :=
  { Name := "test-rs", Namespace := testNs, Kind := "ReplicaSet" }

/-- Graph key of the pod fixture. -/
def podGK : GraphEntityKey :=
  { Name := "test-pod", Namespace := testNs, Kind := "Pod" }

/-- Graph key of the node fixture (cluster-scoped). -/
def nodeGK : GraphEntityKey :=
  { Name := testNodeName, Namespace := "", Kind := "Node" }

/-- Graph key of the service fixture. -/
def svcGK : GraphEntityKey :=
  { Name := "test-svc", Namespace := testNs, Kind := "Service" }

/-- Graph key of the config-map fixture. -/
def cmGK : GraphEntityKey :=
  { Name := "test-cm", Namespace := testNs, Kind := "ConfigMap" }

/-- C3: on the snapshot with one deployment, one owned replica set, one
owned pod scheduled on a node and mounting a config map, and one service
selecting the pod's labels, BuildGraph returns exactly 6 nodes and
exactly the five expected relationships, as a permutation — no
duplicates, no extras. -/
theorem buildGraph_six_node_scenario :
    (BuildGraph testCache 1).Nodes.length = 6
    ∧ List.Perm (BuildGraph testCache 1).Relationships
        [{ Source := podGK, Target := rsGK, RelationshipType := "OWNED_BY",
           Properties := none, Revision := 1 },
         { Source := rsGK, Target := deployGK, RelationshipType := "OWNED_BY",
           Properties := none, Revision := 1 },
         { Source := podGK, Target := nodeGK, RelationshipType := "SCHEDULED_ON",
           Properties := none, Revision := 1 },
         { Source := podGK, Target := cmGK, RelationshipType := "MOUNTS",
           Properties := none, Revision := 1 },
         { Source := svcGK, Target := podGK, RelationshipType := "SELECTS",
           Properties := none, Revision := 1 }] := by
  constructor
  · decide
  · decide

theorem commonProps_lookup_spec_replicas (meta : ObjectMeta) :
    mapLookup (commonProps meta) "spec.replicas" = none := by
  by_cases h1 : meta.Labels.length > 0 <;> by_cases h2 : meta.Annotations.length > 0 <;>
    simp [commonProps, h1, h2, mapLookup]

theorem commonProps_lookup_start_time (meta : ObjectMeta) :
    mapLookup (commonProps meta) "status.startTime" = none := by
  by_cases h1 : meta.Labels.length > 0 <;> by_cases h2 : meta.Annotations.length > 0 <;>
    simp [commonProps, h1, h2, mapLookup]

theorem mapLookup_none_append {α β : Type} [DecidableEq α] {a b : List (α × β)} {k : α}
    (h : mapLookup a k = none) : mapLookup (a ++ b) k = mapLookup b k := by
  rw [mapLookup_append, h]

/-- C10: property extraction is total on nil optional fields — a
ReplicaSet or Deployment with a nil spec.replicas pointer and a Pod with
a nil status.startTime pointer extract the empty string for the
corresponding property instead of crashing. -/
theorem extractProperties_nil_pointer_total :
    (∀ o : ReplicaSet, o.Spec.Replicas = none →
      mapLookup (extractProperties (ObjBody.replicaSet o)) "spec.replicas" = some "")
    ∧ (∀ o : Deployment, o.Spec.Replicas = none →
      mapLookup (extractProperties (ObjBody.deployment o)) "spec.replicas" = some "")
    ∧ (∀ o : Pod, o.Status.StartTime = none →
      mapLookup (extractProperties (ObjBody.pod o)) "status.startTime" = some "") := by
  refine ⟨?_, ?_, ?_⟩
  · intro o h
    rw [extractProperties, mapLookup_none_append (commonProps_lookup_spec_replicas _)]
    simp [specificProps, mapLookup, h, int32PtrToString]
  · intro o h
    rw [extractProperties, mapLookup_none_append (commonProps_lookup_spec_replicas _)]
    simp [specificProps, mapLookup, h, int32PtrToString]
  · intro o h
    rw [extractProperties, mapLookup_none_append (commonProps_lookup_start_time _)]
    simp [specificProps, mapLookup, h, timePtrToString]

/-- Witness for C10 at the concrete fixtures, all of which carry nil
optional fields. -/
theorem extractProperties_nil_pointer_total_witness :
    mapLookup (extractProperties (ObjBody.replicaSet testRsObj)) "spec.replicas" = some ""
    ∧ mapLookup (extractProperties (ObjBody.deployment testDeployObj)) "spec.replicas" = some ""
    ∧ mapLookup (extractProperties (ObjBody.pod testPodObj)) "status.startTime" = some "" :=
  ⟨extractProperties_nil_pointer_total.1 testRsObj rfl,
   extractProperties_nil_pointer_total.2.1 testDeployObj rfl,
   extractProperties_nil_pointer_total.2.2 testPodObj rfl⟩

theorem BuildGraph_revision (c : ResourceCache) (r : Nat) :
    (BuildGraph c r).GraphRevision = r := rfl

theorem buildLoop_spec (events : List LoopEvent) (rev0 : Nat) :
    (buildLoop events rev0).2 = rev0 + (changedBeforeShutdown events).length
    ∧ (buildLoop events rev0).1.map Graph.GraphRevision
      = (List.range (changedBeforeShutdown events).length).map (fun i => rev0 + i + 1) := by
  induction events generalizing rev0 with
  | nil => simp [buildLoop, changedBeforeShutdown]
  | cons e rest ih =>
    cases e with
    | shutdown => simp [buildLoop, changedBeforeShutdown]
    | changed c =>
      have ihr := ih (rev0 + 1)
      constructor
      · simp only [buildLoop, changedBeforeShutdown, List.length_cons, ihr.1]
        omega
      · simp only [buildLoop, changedBeforeShutdown, List.map_cons, BuildGraph_revision,
          ihr.2, List.length_cons, List.range_succ_eq_map, List.map_map]
        refine List.cons_eq_cons.mpr ⟨by omega, ?_⟩
        apply List.map_congr_left
        intro i _
        simp only [Function.comp]
        omega

/-- C9: after the shutdown signal the orchestrator exits the wait loop —
ignoring any later events — and performs exactly one additional final
build from the cache state observed at that point, stamped with a freshly
incremented revision; the revisions of all emitted graphs are strictly
increasing and the final one is largest. -/
theorem orchestrator_final_emit (events : List LoopEvent) (finalCache : ResourceCache)
    (rev0 : Nat) :
    mainRun events finalCache rev0
      = (buildLoop events rev0).1
        ++ [BuildGraph finalCache (rev0 + (changedBeforeShutdown events).length + 1)]
    ∧ (mainRun events finalCache rev0).map Graph.GraphRevision
      = (List.range ((changedBeforeShutdown events).length + 1)).map (fun i => rev0 + i + 1)
    ∧ buildLoop (LoopEvent.shutdown :: events) rev0 = ([], rev0) := by
  refine ⟨?_, ?_, rfl⟩
  · show (buildLoop events rev0).1 ++ [BuildGraph finalCache ((buildLoop events rev0).2 + 1)] = _
    rw [(buildLoop_spec events rev0).1]
  · show ((buildLoop events rev0).1 ++ [BuildGraph finalCache ((buildLoop events rev0).2 + 1)]).map
        Graph.GraphRevision = _
    rw [List.map_append, (buildLoop_spec events rev0).2, List.range_succ, List.map_append,
      List.map_singleton, List.map_singleton, BuildGraph_revision, (buildLoop_spec events rev0).1]

/-- C5: EmitGraph writes the serialized graph to the fresh temporary
file, syncs, closes and renames it to the timestamped final name.  If any
step before the rename fails — and likewise if the rename itself fails —
an error is returned, the temporary file is gone, and nothing becomes
visible under the final snapshot name; only the fault-free run returns ok
and installs the full serialized content under the final name, removing
the temporary name. -/
theorem emitGraph_atomic_visibility (graph : Graph) (outputDir tempName timestamp : String)
    (faults : EmitFaults) (fs : FileSystem)
    (hfresh : mapLookup fs.files tempName = none)
    (hne : tempName ≠ finalFilename outputDir timestamp) :
    (preRenameFailure faults = true →
      (∃ e, (EmitGraph graph outputDir tempName timestamp faults fs).1 = Except.error e)
      ∧ mapLookup (EmitGraph graph outputDir tempName timestamp faults fs).2.files tempName
          = none
      ∧ mapLookup (EmitGraph graph outputDir tempName timestamp faults fs).2.files
            (finalFilename outputDir timestamp)
          = mapLookup fs.files (finalFilename outputDir timestamp))
    ∧ (preRenameFailure faults = false → faults.renameFail = true →
      (∃ e, (EmitGraph graph outputDir tempName timestamp faults fs).1 = Except.error e)
      ∧ mapLookup (EmitGraph graph outputDir tempName timestamp faults fs).2.files tempName
          = none
      ∧ mapLookup (EmitGraph graph outputDir tempName timestamp faults fs).2.files
            (finalFilename outputDir timestamp)
          = mapLookup fs.files (finalFilename outputDir timestamp))
    ∧ (preRenameFailure faults = false → faults.renameFail = false →
      (EmitGraph graph outputDir tempName timestamp faults fs).1 = Except.ok ()
      ∧ mapLookup (EmitGraph graph outputDir tempName timestamp faults fs).2.files
            (finalFilename outputDir timestamp)
          = some (marshalIndentGraph graph)
      ∧ mapLookup (EmitGraph graph outputDir tempName timestamp faults fs).2.files tempName
          = none) := by
  obtain ⟨mk, ma, ct, wr, sy, cl, rn⟩ := faults
  cases mk <;> cases ma <;> cases ct <;> cases wr <;> cases sy <;> cases cl <;> cases rn <;>
    simp_all [EmitGraph, preRenameFailure, mapLookup_mapErase, mapLookup_mapInsert,
      hne, Ne.symm hne]

/-- An empty graph used by the emitter witness. -/
def g0 : Graph := { Nodes := [], Relationships := [], GraphRevision := 1 }

/-- An empty filesystem used by the emitter witness. -/
def fs0 : FileSystem := { files := [] }

/-- Fault schedule failing only the sync step, as in the spec's
sync-failure scenario. -/
def syncFaults : EmitFaults :=
  { mkdirFail := false, marshalFail := false, createTempFail := false,
    writeFail := false, syncFail := true, closeFail := false, renameFail := false }

/-- Witness for C5: a sync failure yields an error, no temp file, and no
file under the final name. -/
theorem emitGraph_atomic_visibility_witness :
    (∃ e, (EmitGraph g0 "out" "out/tmp1" "20250101-000000" syncFaults fs0).1 = Except.error e)
    ∧ mapLookup (EmitGraph g0 "out" "out/tmp1" "20250101-000000" syncFaults fs0).2.files
        "out/tmp1" = none
    ∧ mapLookup (EmitGraph g0 "out" "out/tmp1" "20250101-000000" syncFaults fs0).2.files
          (finalFilename "out" "20250101-000000")
        = mapLookup fs0.files (finalFilename "out" "20250101-000000") :=
  (emitGraph_atomic_visibility g0 "out" "out/tmp1" "20250101-000000" syncFaults fs0
    rfl (by decide)).1 rfl

theorem mem_mapInsert_self {α β : Type} [DecidableEq α] (m : List (α × β)) (k : α) (v : β) :
    (k, v) ∈ mapInsert m k v :=
  List.mem_append_right _ (List.mem_singleton.mpr rfl)

theorem mem_mapErase_of_ne {α β : Type} [DecidableEq α] {m : List (α × β)} {k : α}
    {p : α × β} (hp : p ∈ m) (hne : p.1 ≠ k) : p ∈ mapErase m k :=
  List.mem_filter.mpr ⟨hp, by simp [hne]⟩

theorem mem_mapInsert_of_ne {α β : Type} [DecidableEq α] {m : List (α × β)} {k : α} {v : β}
    {p : α × β} (hp : p ∈ m) (hne : p.1 ≠ k) : p ∈ mapInsert m k v :=
  List.mem_append_left _ (mem_mapErase_of_ne hp hne)

theorem podMapStep_sound {m : List (GraphEntityKey × Pod)} {obj : K8sObject}
    {gk : GraphEntityKey} {p : Pod} (h : (gk, p) ∈ podMapStep m obj) :
    (gk, p) ∈ m ∨ (obj.body = ObjBody.pod p ∧ graphKeyOf obj = gk) := by
  cases hb : obj.body with
  | pod pod =>
    simp only [podMapStep, hb] at h
    rcases mem_mapInsert h with hm | hm
    · exact Or.inl hm
    · obtain ⟨h1, h2⟩ := Prod.mk.injEq .. |>.mp hm
      exact Or.inr ⟨by simp [h2, hb], h1.symm⟩
  | replicaSet o => simp only [podMapStep, hb] at h; exact Or.inl h
  | deployment o => simp only [podMapStep, hb] at h; exact Or.inl h
  | node o => simp only [podMapStep, hb] at h; exact Or.inl h
  | service o => simp only [podMapStep, hb] at h; exact Or.inl h
  | configMap o => simp only [podMapStep, hb] at h; exact Or.inl h
  | unknownType => simp only [podMapStep, hb] at h; exact Or.inl h

theorem podMapFold_sound (objects : List K8sObject) (m : List (GraphEntityKey × Pod))
    (gk : GraphEntityKey) (p : Pod) (h : (gk, p) ∈ objects.foldl podMapStep m) :
    (gk, p) ∈ m ∨ ∃ obj ∈ objects, obj.body = ObjBody.pod p ∧ graphKeyOf obj = gk := by
  induction objects generalizing m with
  | nil => exact Or.inl h
  | cons o rest ih =>
    rcases ih (podMapStep m o) h with hm | ⟨obj, hmem, hbody, hgk⟩
    · rcases podMapStep_sound hm with hm' | ⟨hbody, hgk⟩
      · exact Or.inl hm'
      · exact Or.inr ⟨o, List.mem_cons_self o rest, hbody, hgk⟩
    · exact Or.inr ⟨obj, List.mem_cons_of_mem o hmem, hbody, hgk⟩

theorem podMapFold_complete (objects : List K8sObject) (m : List (GraphEntityKey × Pod))
    (gk : GraphEntityKey) (p : Pod)
    (h1 : (gk, p) ∈ m ∨ ∃ obj ∈ objects, obj.body = ObjBody.pod p ∧ graphKeyOf obj = gk)
    (h2 : ∀ o ∈ objects, ∀ q, o.body = ObjBody.pod q → graphKeyOf o = gk → q = p) :
    (gk, p) ∈ objects.foldl podMapStep m := by
  induction objects generalizing m with
  | nil =>
    rcases h1 with hm | ⟨obj, hmem, _, _⟩
    · exact hm
    · exact absurd hmem (List.not_mem_nil obj)
  | cons o rest ih =>
    apply ih (podMapStep m o)
    · rcases h1 with hm | ⟨obj, hmem, hbody, hgk⟩
      · left
        cases hb : o.body with
        | pod pod =>
          simp only [podMapStep, hb]
          by_cases hko : graphKeyOf o = gk
          · have : pod = p := h2 o (List.mem_cons_self o rest) pod hb hko
            rw [this, hko]
            exact mem_mapInsert_self m gk p
          · exact mem_mapInsert_of_ne hm (fun hh => hko (hh ▸ rfl))
        | replicaSet x => simpa only [podMapStep, hb] using hm
        | deployment x => simpa only [podMapStep, hb] using hm
        | node x => simpa only [podMapStep, hb] using hm
        | service x => simpa only [podMapStep, hb] using hm
        | configMap x => simpa only [podMapStep, hb] using hm
        | unknownType => simpa only [podMapStep, hb] using hm
      · rcases List.mem_cons.mp hmem with rfl | hmem'
        · left
          simp only [podMapStep, hbody, hgk]
          exact mem_mapInsert_self m gk p
        · exact Or.inr ⟨obj, hmem', hbody, hgk⟩
    · intro o' ho' q hq hgk
      exact h2 o' (List.mem_cons_of_mem o ho') q hq hgk

theorem mem_serviceRels {rev : Nat} {src : GraphEntityKey}
    {pm : List (GraphEntityKey × Pod)} {svc : Service} {rel : GraphRelationship} :
    rel ∈ serviceRels rev src pm svc ↔
      ∃ sel, svc.Spec.Selector = some sel ∧ sel.length > 0
        ∧ ∃ entry ∈ pm, entry.2.ObjectMeta.Namespace = svc.ObjectMeta.Namespace
          ∧ selectorMatches sel entry.2.ObjectMeta.Labels = true
          ∧ rel = { Source := src, Target := entry.1, RelationshipType := "SELECTS",
                    Properties := none, Revision := rev } := by
  unfold serviceRels
  cases hs : svc.Spec.Selector with
  | none => simp
  | some sel =>
    by_cases hlen : sel.length > 0
    · simp only [hlen, if_true, List.mem_filterMap]
      constructor
      · rintro ⟨entry, hmem, hf⟩
        refine ⟨sel, rfl, hlen, entry, hmem, ?_⟩
        split at hf
        · rename_i hcond
          cases hf
          exact ⟨hcond.1, hcond.2, rfl⟩
        · exact absurd hf (by simp)
      · rintro ⟨sel', hsel', hlen', entry, hmem, hns, hmatch, rfl⟩
        cases hsel'
        exact ⟨entry, hmem, by simp [hns, hmatch]⟩
    · simp only [hlen, if_false]
      constructor
      · intro hmem
        exact absurd hmem (List.not_mem_nil rel)
      · rintro ⟨sel', hsel', hlen', -⟩
        cases hsel'
        exact absurd hlen' hlen

theorem mem_podRels_type {rev : Nat} {src : GraphEntityKey} {o : Pod}
    {rel : GraphRelationship} (h : rel ∈ podRels rev src o) :
    rel.RelationshipType = "OWNED_BY" ∨ rel.RelationshipType = "SCHEDULED_ON"
    ∨ rel.RelationshipType = "MOUNTS" := by
  unfold podRels at h
  rcases List.mem_append.mp h with h1 | h1
  · rcases List.mem_append.mp h1 with h2 | h2
    · rcases List.mem_filterMap.mp h2 with ⟨a, -, hf⟩
      split at hf
      · cases hf; exact Or.inl rfl
      · exact absurd hf (by simp)
    · split at h2
      · rcases List.mem_singleton.mp h2 with rfl
        exact Or.inr (Or.inl rfl)
      · exact absurd h2 (List.not_mem_nil rel)
  · rcases List.mem_filterMap.mp h1 with ⟨vol, -, hf⟩
    split at hf
    · cases hf; exact Or.inr (Or.inr rfl)
    · exact absurd hf (by simp)

theorem mem_replicaSetRels_type {rev : Nat} {src : GraphEntityKey} {o : ReplicaSet}
    {rel : GraphRelationship} (h : rel ∈ replicaSetRels rev src o) :
    rel.RelationshipType = "OWNED_BY" := by
  unfold replicaSetRels at h
  rcases List.mem_filterMap.mp h with ⟨a, -, hf⟩
  split at hf
  · cases hf; rfl
  · exact absurd hf (by simp)

theorem GetKey_of_known_kind (obj : K8sObject) (h : getKindFromType obj.body ≠ "") :
    GetKey obj
      = some { Kind := if obj.gvkKind = "" then getKindFromType obj.body else obj.gvkKind,
               Namespace := (GetObjectMeta obj.body).Namespace,
               Name := (GetObjectMeta obj.body).Name } := by
  unfold GetKey
  by_cases hg : obj.gvkKind = "" <;> simp [hg, h]

theorem graphKeyOf_eq (obj : K8sObject) (key : EntityKey) (h : GetKey obj = some key) :
    graphKeyOf obj = graphKeyOfEntityKey key := by
  simp [graphKeyOf, h]

theorem nodup_assoc_eq {α β : Type} [DecidableEq α] {m : List (α × β)}
    (h : (m.map Prod.fst).Nodup) {a b : α × β} (ha : a ∈ m) (hb : b ∈ m)
    (hfst : a.1 = b.1) : a = b := by
  induction m with
  | nil => cases ha
  | cons p rest ih =>
    rcases List.mem_cons.mp ha with rfl | ha' <;> rcases List.mem_cons.mp hb with h2 | hb'
    · exact h2.symm
    · exfalso
      apply (List.nodup_cons.mp h).1
      rw [hfst]
      exact List.mem_map_of_mem Prod.fst hb'
    · exfalso
      apply (List.nodup_cons.mp h).1
      rw [← h2, ← hfst]
      exact List.mem_map_of_mem Prod.fst ha'
    · exact ih (List.nodup_cons.mp h).2 ha' hb'

theorem list_graphKeys_inj (c : ResourceCache) (hinv : CacheInv c) :
    ∀ o1 ∈ c.List, ∀ o2 ∈ c.List, graphKeyOf o1 = graphKeyOf o2 → o1 = o2 := by
  intro o1 h1 o2 h2 hk
  simp only [ResourceCache.List] at h1 h2
  rcases List.mem_map.mp h1 with ⟨e1, he1, rfl⟩
  rcases List.mem_map.mp h2 with ⟨e2, he2, rfl⟩
  have k1 : GetKey e1.2 = some e1.1 := hinv.2 e1 he1
  have k2 : GetKey e2.2 = some e2.1 := hinv.2 e2 he2
  rw [graphKeyOf_eq _ _ k1, graphKeyOf_eq _ _ k2] at hk
  have hfst : e1.1 = e2.1 := graphKeyOfEntityKey_injective hk
  rw [nodup_assoc_eq hinv.1 he1 he2 hfst]

/-- C8: a SELECTS relationship is produced exactly for each service and
pod of the snapshot in the same namespace such that the service's
selector is non-nil, non-empty and every selector key=value pair occurs
in the pod's labels; consequently no SELECTS relationship crosses
namespaces, and a service whose selector is nil or empty produces no
SELECTS relationship at all — it never matches all pods. -/
theorem service_selects_characterization (c : ResourceCache) (rev : Nat)
    (hinv : CacheInv c) (rel : GraphRelationship) :
    ((rel ∈ (BuildGraph c rev).Relationships ∧ rel.RelationshipType = "SELECTS")
      ↔ ∃ svcObj ∈ c.List, ∃ svc, svcObj.body = ObjBody.service svc
          ∧ ∃ podObj ∈ c.List, ∃ pod, podObj.body = ObjBody.pod pod
          ∧ ∃ sel, svc.Spec.Selector = some sel ∧ sel.length > 0
          ∧ pod.ObjectMeta.Namespace = svc.ObjectMeta.Namespace
          ∧ selectorMatches sel pod.ObjectMeta.Labels = true
          ∧ rel = { Source := graphKeyOf svcObj, Target := graphKeyOf podObj,
                    RelationshipType := "SELECTS", Properties := none, Revision := rev })
    ∧ (rel ∈ (BuildGraph c rev).Relationships → rel.RelationshipType = "SELECTS" →
        rel.Source.Namespace = rel.Target.Namespace)
    ∧ (∀ src svc, svc.Spec.Selector = none ∨ svc.Spec.Selector = some [] →
        serviceRels rev src (podMapOf c.List) svc = []) := by
  have hrels : (BuildGraph c rev).Relationships
      = (c.List).flatMap (relsForObj rev (podMapOf c.List)) := rfl
  have hiff : (rel ∈ (BuildGraph c rev).Relationships ∧ rel.RelationshipType = "SELECTS")
      ↔ ∃ svcObj ∈ c.List, ∃ svc, svcObj.body = ObjBody.service svc
          ∧ ∃ podObj ∈ c.List, ∃ pod, podObj.body = ObjBody.pod pod
          ∧ ∃ sel, svc.Spec.Selector = some sel ∧ sel.length > 0
          ∧ pod.ObjectMeta.Namespace = svc.ObjectMeta.Namespace
          ∧ selectorMatches sel pod.ObjectMeta.Labels = true
          ∧ rel = { Source := graphKeyOf svcObj, Target := graphKeyOf podObj,
                    RelationshipType := "SELECTS", Properties := none, Revision := rev } := by
    constructor
    · rintro ⟨hmem, htype⟩
      rw [hrels] at hmem
      rcases List.mem_flatMap.mp hmem with ⟨obj, hobj, hrel⟩
      cases hk : GetKey obj with
      | none => simp [relsForObj, hk] at hrel
      | some key =>
        cases hb : obj.body with
        | pod o =>
          rw [show relsForObj rev (podMapOf c.List) obj
              = podRels rev (graphKeyOfEntityKey key) o from by
            simp [relsForObj, hk, hb, graphKeyOfEntityKey]] at hrel
          rcases mem_podRels_type hrel with ht | ht | ht <;> rw [htype] at ht <;>
            exact absurd ht (by decide)
        | replicaSet o =>
          rw [show relsForObj rev (podMapOf c.List) obj
              = replicaSetRels rev (graphKeyOfEntityKey key) o from by
            simp [relsForObj, hk, hb, graphKeyOfEntityKey]] at hrel
          have ht := mem_replicaSetRels_type hrel
          rw [htype] at ht
          exact absurd ht (by decide)
        | deployment o => simp [relsForObj, hk, hb] at hrel
        | node o => simp [relsForObj, hk, hb] at hrel
        | configMap o => simp [relsForObj, hk, hb] at hrel
        | unknownType => simp [relsForObj, hk, hb] at hrel
        | service svc =>
          rw [show relsForObj rev (podMapOf c.List) obj
              = serviceRels rev (graphKeyOfEntityKey key) (podMapOf c.List) svc from by
            simp [relsForObj, hk, hb, graphKeyOfEntityKey]] at hrel
          rcases mem_serviceRels.mp hrel with ⟨sel, hsel, hlen, entry, hentry, hns, hmatch, hre⟩
          rcases podMapFold_sound (c.List) [] entry.1 entry.2 hentry with hq | ⟨podObj, hpm, hpb, hpk⟩
          · exact absurd hq (List.not_mem_nil _)
          · refine ⟨obj, hobj, svc, hb, podObj, hpm, entry.2, hpb, sel, hsel, hlen, hns,
              hmatch, ?_⟩
            rw [hre, graphKeyOf_eq obj key hk, hpk]
    · rintro ⟨svcObj, hsvcMem, svc, hsb, podObj, hpodMem, pod, hpb, sel, hsel, hlen, hns,
        hmatch, rfl⟩
      have hkind : getKindFromType svcObj.body ≠ "" := by rw [hsb]; simp [getKindFromType]
      have hk := GetKey_of_known_kind svcObj hkind
      refine ⟨?_, rfl⟩
      rw [hrels]
      apply List.mem_flatMap.mpr
      refine ⟨svcObj, hsvcMem, ?_⟩
      rw [show relsForObj rev (podMapOf c.List) svcObj
          = serviceRels rev (graphKeyOf svcObj) (podMapOf c.List) svc from by
        rw [graphKeyOf_eq svcObj _ hk]
        simp [relsForObj, hk, hsb, graphKeyOfEntityKey]]
      apply mem_serviceRels.mpr
      refine ⟨sel, hsel, hlen, (graphKeyOf podObj, pod), ?_, hns, hmatch, rfl⟩
      apply podMapFold_complete (c.List) [] (graphKeyOf podObj) pod
      · exact Or.inr ⟨podObj, hpodMem, hpb, rfl⟩
      · intro o ho q hq hgk
        have : o = podObj := list_graphKeys_inj c hinv o ho podObj hpodMem hgk
        rw [this] at hq
        rw [hpb] at hq
        exact (ObjBody.pod.injEq .. |>.mp hq.symm)
  refine ⟨hiff, ?_, ?_⟩
  · intro hmem htype
    rcases hiff.mp ⟨hmem, htype⟩ with ⟨svcObj, -, svc, hsb, podObj, -, pod, hpb, sel, -, -,
      hns, -, rfl⟩
    have hsk := GetKey_of_known_kind svcObj (by rw [hsb]; simp [getKindFromType])
    have hpk := GetKey_of_known_kind podObj (by rw [hpb]; simp [getKindFromType])
    rw [graphKeyOf_eq svcObj _ hsk, graphKeyOf_eq podObj _ hpk]
    show (GetObjectMeta svcObj.body).Namespace = (GetObjectMeta podObj.body).Namespace
    rw [hsb, hpb]
    exact hns.symm
  · rintro src svc (h | h) <;> simp [serviceRels, h]

/-- The SELECTS relationship of the six-object fixture. -/
def selRel : GraphRelationship :=
  { Source := svcGK, Target := podGK, RelationshipType := "SELECTS",
    Properties := none, Revision := 1 }

/-- Witness for C8: on the six-object fixture the SELECTS relationship of
the service is emitted and stays inside the namespace. -/
theorem service_selects_characterization_witness :
    selRel.Source.Namespace = selRel.Target.Namespace :=
  (service_selects_characterization testCache 1 ⟨by decide, by decide⟩ selRel).2.1
    (by decide) rfl

end Satellite
